import Mathlib

/-!
Shallow embedding of the voice `PacketHandler` (receiver packet router):
datagram routing (`push`), nonce construction and authenticated-decryption
plumbing (`parseBuffer`), RTP one-byte header-extension stripping
(`stripExtensions`), per-SSRC speaking debounce (`debounceStep`, `timerFire`)
and per-user audio/video stream delivery (`deliverAudio`, `deliverVideo`).

Buffers are `List Nat` (byte values). A thrown JavaScript exception is the
`Except.error ()` value; an `Error` object *returned* by `parseBuffer` is the
`ParseOutcome.err` constructor. JavaScript `Map`s are association lists.
Side effects (event emission, stream pushes, timer scheduling) are recorded
as an explicit `Effect` trace.
-/

/-- The delay in milliseconds between packets when a user is considered to
have stopped speaking (`DISCORD_SPEAKING_DELAY`). -/
def DISCORD_SPEAKING_DELAY : Nat := 250

/-- One entry of `connection.ssrcMap`. The entry object is shared by
reference with the connection, so the handler's write to `speaking` is
visible in the map. -/
structure UserStat where
  userId : Nat
  hasVideo : Bool
  speaking : Nat
  deriving DecidableEq, Repr

/-- One entry of `this.streams`: the audio `Readable` handle (represented by
a numeric id) and the `end` policy string stored with it at creation. -/
structure StreamInfo where
  streamId : Nat
  endPolicy : String
  deriving DecidableEq, Repr

/-- Mutable state touched by the handler: its own 24-byte `nonce` scratch
buffer, the audio and video stream registries, the per-SSRC speaking
timeout map, plus the connection's `ssrcMap` (mutated through the shared
entry reference when the speaking flag is first set). -/
structure HandlerState where
  nonce : List Nat
  ssrcMap : List (Nat × UserStat)
  streams : List (Nat × StreamInfo)
  videoStreams : List Nat
  speakingTimeouts : List Nat
  deriving DecidableEq, Repr

/-- External collaborators of the handler: `connection.authentication`
(`secret_key`, `mode`), `secretbox.methods.open`, the imported
`SILENCE_FRAME` constant and the `Speaking.FLAGS.SPEAKING` bit (the last two
come from utility modules outside this core; in the real library the flag is
the fixed nonzero bit 1 and the silence frame is `f8 ff fe`). -/
structure Env where
  secret_key : Option (List Nat)
  mode : String
  sbOpen : List Nat → List Nat → List Nat → Option (List Nat)
  silenceFrame : List Nat
  speakingFlag : Nat

/-- Observable side effects of routing one packet or firing one timer. -/
inductive Effect where
  | errorEmitted : String → Effect
  | speakingNotify : Nat → Nat → Nat → Effect
  | timerArmed : Nat → Nat → Effect
  | timerRefreshed : Nat → Effect
  | audioPush : Nat → List Nat → Effect
  | videoPush : Nat → List Nat → Effect
  | streamEnded : Nat → Effect
  deriving DecidableEq, Repr

/-- `buf.readUInt32BE(off)`: big-endian unsigned 32-bit read; Node throws
`ERR_OUT_OF_RANGE` when fewer than four bytes are available at `off`. -/
def readUInt32BE (b : List Nat) (off : Nat) : Except Unit Nat :=
  if off + 4 ≤ b.length then
    .ok (b.getD off 0 * 16777216 + b.getD (off + 1) 0 * 65536 +
         b.getD (off + 2) 0 * 256 + b.getD (off + 3) 0)
  else .error ()

/-- `src.copy(target, targetStart, sourceStart, sourceEnd)`: Node throws on a
negative bound or on `sourceStart > src.length`, clamps everything else, and
leaves the bytes of `target` outside the copied range untouched. -/
def bufCopy (target : List Nat) (targetStart : Nat) (src : List Nat)
    (sourceStart sourceEnd : Int) : Option (List Nat) :=
  if sourceStart < 0 ∨ (src.length : Int) < sourceStart ∨ sourceEnd < 0 then none
  else
    let s := sourceStart.toNat
    let e := min sourceEnd.toNat src.length
    let chunk := ((src.take e).drop s).take (target.length - targetStart)
    some (target.take targetStart ++ chunk ++ target.drop (targetStart + chunk.length))

/-- `buf.slice(start, end)`: clamping, never throws; a negative `end` counts
from the back of the buffer; a missing `end` means the buffer length. -/
def jsSlice (l : List Nat) (start : Nat) (endOff : Option Int) : List Nat :=
  let e : Int :=
    match endOff with
    | none => (l.length : Int)
    | some e => if e < 0 then max 0 ((l.length : Int) + e) else min e (l.length : Int)
  (l.take e.toNat).drop start

/-- Outcome of `parseBuffer`: an `Error` value (`err`) returned to the
caller, or the decrypted and stripped packet. -/
inductive ParseOutcome where
  | err : String → ParseOutcome
  | ok : List Nat → ParseOutcome
  deriving DecidableEq, Repr

/-- Nonce selection at the top of `parseBuffer`: fill the handler's 24-byte
scratch nonce from the datagram according to the encryption mode and return
the ciphertext end offset (`none` models the `undefined` left by the
default branch, which `slice` treats as the datagram length). -/
def nonceAndEnd (mode : String) (nonce buffer : List Nat) :
    Except Unit (List Nat × Option Int) :=
  if mode = "xsalsa20_poly1305_lite" then
    match bufCopy nonce 0 buffer ((buffer.length : Int) - 4) (buffer.length : Int) with
    | none => .error ()
    | some n => .ok (n, some ((buffer.length : Int) - 4))
  else if mode = "xsalsa20_poly1305_suffix" then
    match bufCopy nonce 0 buffer ((buffer.length : Int) - 24) (buffer.length : Int) with
    | none => .error ()
    | some n => .ok (n, some ((buffer.length : Int) - 24))
  else
    match bufCopy nonce 0 buffer 0 12 with
    | none => .error ()
    | some n => .ok (n, none)

/-- RTP one-byte header-extension stripping: on the `0xBE 0xDE` marker, skip
`4 + 4 * length` bytes, the length being a big-endian u16 at offset 2
(`readUInt16BE(2)` throws when the packet is shorter than 4 bytes, and
`subarray` clamps a start offset past the end to an empty buffer). Reading
`packet[0]` on a too-short buffer yields `undefined` in JavaScript, which
fails the marker comparison exactly as the `getD` default 0 does here. -/
def stripExtensions (packet : List Nat) : Except Unit (List Nat) :=
  if packet.getD 0 0 = 0xbe ∧ packet.getD 1 0 = 0xde then
    if 4 ≤ packet.length then
      .ok (packet.drop (4 + 4 * (packet.getD 2 0 * 256 + packet.getD 3 0)))
    else .error ()
  else .ok packet

/-- `parseBuffer(buffer)`: select the nonce, check the key, open the
ciphertext `buffer.slice(12, end)`, and strip header extensions. Returns
the updated nonce scratch state alongside the outcome; the nonce is written
before the key check, exactly as in the source. -/
def parseBuffer (env : Env) (nonce buffer : List Nat) :
    Except Unit (List Nat × ParseOutcome) :=
  match nonceAndEnd env.mode nonce buffer with
  | .error _ => .error ()
  | .ok (n, endOff) =>
    match env.secret_key with
    | none => .ok (n, .err "secret_key cannot be null or undefined")
    | some key =>
      match env.sbOpen (jsSlice buffer 12 endOff) n key with
      | none => .ok (n, .err "Failed to decrypt voice packet")
      | some packet =>
        match stripExtensions packet with
        | .error _ => .error ()
        | .ok stripped => .ok (n, .ok stripped)

/-- `makeStream(user, end)`: idempotent stream creation; a second call for a
registered user returns the stored handle and ignores its `end` argument.
`freshId` stands for the newly constructed `Readable` when one is made. -/
def makeStream (st : HandlerState) (user : Nat) (endp : String) (freshId : Nat) :
    Nat × HandlerState :=
  match List.lookup user st.streams with
  | some si => (si.streamId, st)
  | none => (freshId, { st with streams := (user, ⟨freshId, endp⟩) :: st.streams })

/-- `_stoppedSpeaking(userId)`: when the stored end policy is `'silence'`,
delete the registry entry and push the EOF marker (`null`) to the stream;
otherwise do nothing. -/
def stoppedSpeaking (st : HandlerState) (userId : Nat) : HandlerState × List Effect :=
  match List.lookup userId st.streams with
  | some si =>
    if si.endPolicy = "silence" then
      ({ st with streams := st.streams.filter (fun p => p.1 != userId) },
       [.streamEnded si.streamId])
    else (st, [])
  | none => (st, [])

/-- `Map.set` on an association list at a key that is already present
(the only way the handler writes to the shared `ssrcMap`). -/
def setA (m : List (Nat × UserStat)) (k : Nat) (v : UserStat) : List (Nat × UserStat) :=
  m.map fun p => if p.1 = k then (k, v) else p

/-- The speaking-debounce block of `push` (the part guarded by the exact
`ssrcMap.has(ssrc)` check): on a fresh SSRC ensure the shared entry's
speaking flag is nonzero, notify speaking-start and arm the 250 ms timer; on
an SSRC with a live timer only refresh it. `u` is the entry resolved for
this packet; when the guard holds it is the entry stored under `ssrc`
itself, since `get(ssrc) || get(ssrc - 1)` returns the exact hit first. -/
def debounceStep (env : Env) (st : HandlerState) (ssrc : Nat) (u : UserStat) :
    HandlerState × List Effect :=
  if (List.lookup ssrc st.ssrcMap).isSome then
    if st.speakingTimeouts.contains ssrc then
      (st, [.timerRefreshed ssrc])
    else
      let u' := if u.speaking = 0 then { u with speaking := env.speakingFlag } else u
      ({ st with ssrcMap := setA st.ssrcMap ssrc u',
                 speakingTimeouts := ssrc :: st.speakingTimeouts },
       [.speakingNotify u'.userId ssrc u'.speaking,
        .timerArmed ssrc DISCORD_SPEAKING_DELAY])
  else (st, [])

/-- The video-sink block at the end of `push`, with the memoized
decrypt-and-strip result threaded through (`opusPacket`). -/
def deliverVideo (env : Env) (st : HandlerState) (buffer : List Nat) (u : UserStat)
    (memo : Option (List Nat)) (effs : List Effect) :
    Except Unit (HandlerState × List Effect) :=
  if st.videoStreams.contains u.userId then
    match memo with
    | some pkt => .ok (st, effs ++ [.videoPush u.userId pkt])
    | none =>
      match parseBuffer env st.nonce buffer with
      | .error _ => .error ()
      | .ok (n, .err msg) => .ok ({ st with nonce := n }, effs ++ [.errorEmitted msg])
      | .ok (n, .ok pkt) => .ok ({ st with nonce := n }, effs ++ [.videoPush u.userId pkt])
  else .ok (st, effs)

/-- The audio-sink block of `push` followed by the video-sink block. The
`opusPacket === null` EOF branch of the source is unreachable through
`parseBuffer`, whose successful outcome is always a buffer. -/
def deliverAudio (env : Env) (st : HandlerState) (buffer : List Nat) (u : UserStat)
    (memo : Option (List Nat)) (effs : List Effect) :
    Except Unit (HandlerState × List Effect) :=
  match List.lookup u.userId st.streams with
  | none => deliverVideo env st buffer u memo effs
  | some si =>
    match memo with
    | some pkt =>
      deliverVideo env st buffer u (some pkt) (effs ++ [.audioPush si.streamId pkt])
    | none =>
      match parseBuffer env st.nonce buffer with
      | .error _ => .error ()
      | .ok (n, .err msg) => .ok ({ st with nonce := n }, effs ++ [.errorEmitted msg])
      | .ok (n, .ok pkt) =>
        deliverVideo env { st with nonce := n } buffer u (some pkt)
          (effs ++ [.audioPush si.streamId pkt])

/-- `ssrcMap.get(ssrc) || ssrcMap.get(ssrc - 1)`: exact lookup with the
SSRC-minus-one fallback. -/
def resolveUser (ssrcMap : List (Nat × UserStat)) (ssrc : Nat) : Option UserStat :=
  match List.lookup ssrc ssrcMap with
  | some u => some u
  | none => List.lookup (ssrc - 1) ssrcMap

/-- `push(buffer)`: the full per-datagram routing path — SSRC extraction and
resolution, eager decrypt and silence filtering for video-enabled users,
speaking debounce, then audio and video delivery. -/
def push (env : Env) (st : HandlerState) (buffer : List Nat) :
    Except Unit (HandlerState × List Effect) :=
  match readUInt32BE buffer 8 with
  | .error _ => .error ()
  | .ok ssrc =>
    match resolveUser st.ssrcMap ssrc with
    | none => .ok (st, [])
    | some u =>
      if u.hasVideo then
        match parseBuffer env st.nonce buffer with
        | .error _ => .error ()
        | .ok (n, .err msg) =>
          if (List.lookup u.userId st.streams).isSome ∨ st.videoStreams.contains u.userId then
            .ok ({ st with nonce := n }, [.errorEmitted msg])
          else .ok ({ st with nonce := n }, [])
        | .ok (n, .ok pkt) =>
          if pkt = env.silenceFrame then .ok ({ st with nonce := n }, [])
          else
            let r := debounceStep env { st with nonce := n } ssrc u
            deliverAudio env r.1 buffer u (some pkt) r.2
      else
        let r := debounceStep env st ssrc u
        deliverAudio env r.1 buffer u none r.2

/-- Body of the `setTimeout` callback armed by the debounce block: notify
speaking-stop, clear the timer and delete the per-SSRC map entry, in that
order; `notifyFails` models `connection.onSpeaking` throwing because the
session already closed, which aborts the body before the deletion. -/
def timerCallbackBody (notifyFails : Bool) (st : HandlerState) (userId ssrc : Nat) :
    Except Unit (HandlerState × List Effect) :=
  if notifyFails then .error ()
  else
    .ok ({ st with speakingTimeouts := st.speakingTimeouts.filter (fun s => s != ssrc) },
         [.speakingNotify userId ssrc 0])

/-- The timer callback including its surrounding `try`/`catch`: a failure of
the body is swallowed, leaving the handler state exactly as the body left
it when it threw. -/
def timerFire (notifyFails : Bool) (st : HandlerState) (userId ssrc : Nat) :
    HandlerState × List Effect :=
  match timerCallbackBody notifyFails st userId ssrc with
  | .ok r => r
  | .error _ => (st, [])

/-- Effects that advance the speaking debouncer: arming or refreshing the
per-SSRC timer. -/
def isDebounceAdvance : Effect → Bool
  | .timerArmed _ _ => true
  | .timerRefreshed _ => true
  | _ => false

/-- A speaking-start notification: `onSpeaking` with a nonzero bitmask. -/
def isSpeakingStart : Effect → Bool
  | .speakingNotify _ _ f => f != 0
  | _ => false

/-- Arming the one-shot quiet-window timer with the fixed 250 ms delay. -/
def isTimerArm : Effect → Bool
  | .timerArmed _ d => d == DISCORD_SPEAKING_DELAY
  | _ => false

/-- Refreshing an already-armed debounce timer. -/
def isTimerRefresh : Effect → Bool
  | .timerRefreshed _ => true
  | _ => false

/-- An `error` event emitted on the handler. -/
def isError : Effect → Bool
  | .errorEmitted _ => true
  | _ => false

/-- A payload handed to a registered audio or video sink. -/
def isDelivery : Effect → Bool
  | .audioPush _ _ => true
  | .videoPush _ _ => true
  | _ => false

/-- Effects the delivery blocks can produce (payload pushes and error
events), as opposed to debounce effects. -/
def isDeliveryOrError : Effect → Bool := fun e => isDelivery e || isError e

/-- The delivery blocks leave every routing map and the timeout map intact
and only append payload-push or error effects to the trace. -/
lemma deliverVideo_spec {env : Env} {st : HandlerState} {buffer : List Nat}
    {u : UserStat} {memo : Option (List Nat)} {effs : List Effect}
    {st' : HandlerState} {effs' : List Effect}
    (h : deliverVideo env st buffer u memo effs = .ok (st', effs')) :
    st'.ssrcMap = st.ssrcMap ∧ st'.speakingTimeouts = st.speakingTimeouts ∧
    st'.streams = st.streams ∧ st'.videoStreams = st.videoStreams ∧
    ∃ extra, effs' = effs ++ extra ∧ ∀ e ∈ extra, isDeliveryOrError e = true := by
  revert h
  unfold deliverVideo
  by_cases hc : st.videoStreams.contains u.userId
  · rw [if_pos hc]
    cases memo with
    | some pkt =>
      intro h
      have h' : Except.ok (ε := Unit)
          (st, effs ++ [Effect.videoPush u.userId pkt]) = .ok (st', effs') := h
      injection h' with h2
      injection h2 with ha hb
      subst ha; subst hb
      refine ⟨rfl, rfl, rfl, rfl, [.videoPush u.userId pkt], rfl, ?_⟩
      intro e he
      rw [List.mem_singleton] at he
      subst he; rfl
    | none =>
      cases hp : parseBuffer env st.nonce buffer with
      | error e => intro h; exact Except.noConfusion h
      | ok p =>
        obtain ⟨n, po⟩ := p
        cases po with
        | err msg =>
          intro h
          have h' : Except.ok (ε := Unit)
              ({ st with nonce := n }, effs ++ [Effect.errorEmitted msg]) = .ok (st', effs') := h
          injection h' with h2
          injection h2 with ha hb
          subst ha; subst hb
          refine ⟨rfl, rfl, rfl, rfl, [.errorEmitted msg], rfl, ?_⟩
          intro e he
          rw [List.mem_singleton] at he
          subst he; rfl
        | ok pkt =>
          intro h
          have h' : Except.ok (ε := Unit)
              ({ st with nonce := n }, effs ++ [Effect.videoPush u.userId pkt]) = .ok (st', effs') := h
          injection h' with h2
          injection h2 with ha hb
          subst ha; subst hb
          refine ⟨rfl, rfl, rfl, rfl, [.videoPush u.userId pkt], rfl, ?_⟩
          intro e he
          rw [List.mem_singleton] at he
          subst he; rfl
  · rw [if_neg hc]
    intro h
    have h' : Except.ok (ε := Unit) (st, effs) = .ok (st', effs') := h
    injection h' with h2
    injection h2 with ha hb
    subst ha; subst hb
    exact ⟨rfl, rfl, rfl, rfl, [], by simp, by intro e he; simp at he⟩

/-- Like `deliverVideo_spec`, for the audio block followed by the video
block. -/
lemma deliverAudio_spec {env : Env} {st : HandlerState} {buffer : List Nat}
    {u : UserStat} {memo : Option (List Nat)} {effs : List Effect}
    {st' : HandlerState} {effs' : List Effect}
    (h : deliverAudio env st buffer u memo effs = .ok (st', effs')) :
    st'.ssrcMap = st.ssrcMap ∧ st'.speakingTimeouts = st.speakingTimeouts ∧
    st'.streams = st.streams ∧ st'.videoStreams = st.videoStreams ∧
    ∃ extra, effs' = effs ++ extra ∧ ∀ e ∈ extra, isDeliveryOrError e = true := by
  revert h
  unfold deliverAudio
  cases hsi : List.lookup u.userId st.streams with
  | none =>
    intro h
    exact deliverVideo_spec h
  | some si =>
    cases memo with
    | some pkt =>
      intro h
      obtain ⟨a1, a2, a3, a4, extra, hx, hall⟩ := deliverVideo_spec h
      refine ⟨a1, a2, a3, a4, .audioPush si.streamId pkt :: extra, by simp [hx], ?_⟩
      intro e he
      rcases List.mem_cons.mp he with h1 | h1
      · subst h1; rfl
      · exact hall e h1
    | none =>
      cases hp : parseBuffer env st.nonce buffer with
      | error e => intro h; exact Except.noConfusion h
      | ok p =>
        obtain ⟨n, po⟩ := p
        cases po with
        | err msg =>
          intro h
          have h' : Except.ok (ε := Unit)
              ({ st with nonce := n }, effs ++ [Effect.errorEmitted msg]) = .ok (st', effs') := h
          injection h' with h2
          injection h2 with ha hb
          subst ha; subst hb
          refine ⟨rfl, rfl, rfl, rfl, [.errorEmitted msg], rfl, ?_⟩
          intro e he
          rw [List.mem_singleton] at he
          subst he; rfl
        | ok pkt =>
          intro h
          obtain ⟨a1, a2, a3, a4, extra, hx, hall⟩ := deliverVideo_spec h
          refine ⟨a1, a2, a3, a4, .audioPush si.streamId pkt :: extra, by simp [hx], ?_⟩
          intro e he
          rcases List.mem_cons.mp he with h1 | h1
          · subst h1; rfl
          · exact hall e h1

/-- Counting a debounce-side predicate ignores delivery-side effects. -/
lemma countP_delivery_extra (p : Effect → Bool)
    (hp : ∀ e, isDeliveryOrError e = true → p e = false)
    (effs extra : List Effect) (hex : ∀ e ∈ extra, isDeliveryOrError e = true) :
    (effs ++ extra).countP p = effs.countP p := by
  rw [List.countP_append]
  have : extra.countP p = 0 := by
    rw [List.countP_eq_zero]
    intro e he
    simp [hp e (hex e he)]
  omega

lemma isSpeakingStart_of_delivery :
    ∀ e, isDeliveryOrError e = true → isSpeakingStart e = false := by
  intro e he
  cases e <;> simp_all [isDeliveryOrError, isDelivery, isError, isSpeakingStart]

lemma isTimerArm_of_delivery :
    ∀ e, isDeliveryOrError e = true → isTimerArm e = false := by
  intro e he
  cases e <;> simp_all [isDeliveryOrError, isDelivery, isError, isTimerArm]

lemma isTimerRefresh_of_delivery :
    ∀ e, isDeliveryOrError e = true → isTimerRefresh e = false := by
  intro e he
  cases e <;> simp_all [isDeliveryOrError, isDelivery, isError, isTimerRefresh]

lemma isDebounceAdvance_of_delivery :
    ∀ e, isDeliveryOrError e = true → isDebounceAdvance e = false := by
  intro e he
  cases e <;> simp_all [isDeliveryOrError, isDelivery, isError, isDebounceAdvance]

lemma isError_not_delivery : ∀ e, isError e = true → isDelivery e = false := by
  intro e he
  cases e <;> simp_all [isDelivery, isError]

/-- Debounce block when the exact SSRC is absent from the directory: it does
nothing, whatever fallback entry resolved the packet. -/
lemma debounceStep_miss (env : Env) (st : HandlerState) (ssrc : Nat) (u : UserStat)
    (hm : List.lookup ssrc st.ssrcMap = none) :
    debounceStep env st ssrc u = (st, []) := by
  simp [debounceStep, hm]

/-- Debounce block when the exact SSRC is in the directory: refresh when a
timer is live, otherwise set the speaking flag if needed, notify start and
arm the 250 ms timer. -/
lemma debounceStep_hit (env : Env) (st : HandlerState) (ssrc : Nat) (u : UserStat)
    (hm : List.lookup ssrc st.ssrcMap = some u) :
    (st.speakingTimeouts.contains ssrc = true →
      debounceStep env st ssrc u = (st, [.timerRefreshed ssrc])) ∧
    (st.speakingTimeouts.contains ssrc = false →
      debounceStep env st ssrc u =
        ({ st with
            ssrcMap := setA st.ssrcMap ssrc
              (if u.speaking = 0 then { u with speaking := env.speakingFlag } else u),
            speakingTimeouts := ssrc :: st.speakingTimeouts },
         [.speakingNotify u.userId ssrc (if u.speaking = 0 then env.speakingFlag else u.speaking),
          .timerArmed ssrc DISCORD_SPEAKING_DELAY])) := by
  constructor
  · intro hc
    unfold debounceStep
    rw [hm]
    simp only [Option.isSome_some, if_true, hc, if_pos rfl]
  · intro hc
    unfold debounceStep
    rw [hm]
    simp only [Option.isSome_some, if_true, hc]
    by_cases hz : u.speaking = 0 <;> simp [hz]

/-- Reduction of `push` for a resolved user without video. -/
lemma push_novideo (env : Env) (st : HandlerState) (buffer : List Nat) (ssrc : Nat)
    (u : UserStat)
    (hr : readUInt32BE buffer 8 = .ok ssrc)
    (hm : resolveUser st.ssrcMap ssrc = some u)
    (hv : u.hasVideo = false) :
    push env st buffer =
      deliverAudio env (debounceStep env st ssrc u).1 buffer u none
        (debounceStep env st ssrc u).2 := by
  simp [push, hr, hm, hv]

/-- Reduction of `push` for a video-enabled user whose packet decrypts to a
non-silence payload. -/
lemma push_video_ok (env : Env) (st : HandlerState) (buffer : List Nat) (ssrc : Nat)
    (u : UserStat) (n pkt : List Nat)
    (hr : readUInt32BE buffer 8 = .ok ssrc)
    (hm : resolveUser st.ssrcMap ssrc = some u)
    (hv : u.hasVideo = true)
    (hp : parseBuffer env st.nonce buffer = .ok (n, .ok pkt))
    (hs : pkt ≠ env.silenceFrame) :
    push env st buffer =
      deliverAudio env (debounceStep env { st with nonce := n } ssrc u).1 buffer u (some pkt)
        (debounceStep env { st with nonce := n } ssrc u).2 := by
  simp [push, hr, hm, hv, hp, hs]

/-- Reduction of `push` for a video-enabled user whose packet decrypts to
the silence frame: dropped with no effects, only the nonce scratch moved. -/
lemma push_video_silence (env : Env) (st : HandlerState) (buffer : List Nat) (ssrc : Nat)
    (u : UserStat) (n : List Nat)
    (hr : readUInt32BE buffer 8 = .ok ssrc)
    (hm : resolveUser st.ssrcMap ssrc = some u)
    (hv : u.hasVideo = true)
    (hp : parseBuffer env st.nonce buffer = .ok (n, .ok env.silenceFrame)) :
    push env st buffer = .ok ({ st with nonce := n }, []) := by
  simp [push, hr, hm, hv, hp]

/-- Reduction of `push` for a video-enabled user whose packet fails to
parse: one error event iff some sink is registered. -/
lemma push_video_err (env : Env) (st : HandlerState) (buffer : List Nat) (ssrc : Nat)
    (u : UserStat) (n : List Nat) (msg : String)
    (hr : readUInt32BE buffer 8 = .ok ssrc)
    (hm : resolveUser st.ssrcMap ssrc = some u)
    (hv : u.hasVideo = true)
    (hp : parseBuffer env st.nonce buffer = .ok (n, .err msg)) :
    push env st buffer =
      if (List.lookup u.userId st.streams).isSome ∨ st.videoStreams.contains u.userId then
        .ok ({ st with nonce := n }, [.errorEmitted msg])
      else .ok ({ st with nonce := n }, []) := by
  by_cases hsink : (List.lookup u.userId st.streams).isSome ∨ st.videoStreams.contains u.userId <;>
    simp [push, hr, hm, hv, hp, hsink]

/-- Inversion of a successful `push` for a packet that resolves by exact
SSRC lookup and is not dropped by the video silence filter: the run is a
debounce step followed by the delivery blocks, from a state differing from
the input at most in the nonce scratch buffer. -/
lemma push_ok_inverts (env : Env) (st : HandlerState) (buffer : List Nat)
    (ssrc : Nat) (u : UserStat) (st' : HandlerState) (effs : List Effect)
    (hr : readUInt32BE buffer 8 = .ok ssrc)
    (hm : List.lookup ssrc st.ssrcMap = some u)
    (hv : u.hasVideo = true →
      ∃ n pkt, parseBuffer env st.nonce buffer = .ok (n, .ok pkt) ∧ pkt ≠ env.silenceFrame)
    (hp : push env st buffer = .ok (st', effs)) :
    ∃ stN memo, stN.ssrcMap = st.ssrcMap ∧ stN.speakingTimeouts = st.speakingTimeouts ∧
      deliverAudio env (debounceStep env stN ssrc u).1 buffer u memo
        (debounceStep env stN ssrc u).2 = .ok (st', effs) := by
  have hres : resolveUser st.ssrcMap ssrc = some u := by
    unfold resolveUser; rw [hm]
  by_cases hvv : u.hasVideo = true
  · obtain ⟨n, pkt, hpb, hsil⟩ := hv hvv
    rw [push_video_ok env st buffer ssrc u n pkt hr hres hvv hpb hsil] at hp
    exact ⟨{ st with nonce := n }, some pkt, rfl, rfl, hp⟩
  · have hvf : u.hasVideo = false := by
      revert hvv; cases u.hasVideo <;> simp
    rw [push_novideo env st buffer ssrc u hr hres hvf] at hp
    exact ⟨st, none, rfl, rfl, hp⟩

/-- Effect accounting for a debounce step followed by delivery: on a fresh
SSRC exactly one speaking-start and one 250 ms arming, on a live timer
exactly one refresh and nothing else; either way exactly one debouncer
advance, and the timeout map gains the SSRC exactly in the fresh case. -/
lemma debounce_then_deliver_ok (env : Env) (stN : HandlerState) (buffer : List Nat)
    (ssrc : Nat) (u : UserStat) (memo : Option (List Nat))
    (st' : HandlerState) (effs : List Effect)
    (hm : List.lookup ssrc stN.ssrcMap = some u)
    (hflag : env.speakingFlag ≠ 0)
    (hd : deliverAudio env (debounceStep env stN ssrc u).1 buffer u memo
            (debounceStep env stN ssrc u).2 = .ok (st', effs)) :
    (stN.speakingTimeouts.contains ssrc = false →
      effs.countP isSpeakingStart = 1 ∧ effs.countP isTimerArm = 1 ∧
      effs.countP isTimerRefresh = 0 ∧ effs.countP isDebounceAdvance = 1 ∧
      st'.speakingTimeouts = ssrc :: stN.speakingTimeouts) ∧
    (stN.speakingTimeouts.contains ssrc = true →
      effs.countP isSpeakingStart = 0 ∧ effs.countP isTimerArm = 0 ∧
      effs.countP isTimerRefresh = 1 ∧ effs.countP isDebounceAdvance = 1 ∧
      st'.speakingTimeouts = stN.speakingTimeouts) := by
  constructor
  · intro hc
    rw [(debounceStep_hit env stN ssrc u hm).2 hc] at hd
    obtain ⟨a1, a2, a3, a4, extra, hx, hall⟩ := deliverAudio_spec hd
    subst hx
    refine ⟨?_, ?_, ?_, ?_, by simpa using a2⟩
    · rw [countP_delivery_extra _ isSpeakingStart_of_delivery _ _ hall]
      by_cases hz : u.speaking = 0 <;>
        simp [hz, List.countP_cons, isSpeakingStart, isTimerArm, hflag]
    · rw [countP_delivery_extra _ isTimerArm_of_delivery _ _ hall]
      simp [List.countP_cons, isSpeakingStart, isTimerArm]
    · rw [countP_delivery_extra _ isTimerRefresh_of_delivery _ _ hall]
      simp [List.countP_cons, isTimerRefresh]
    · rw [countP_delivery_extra _ isDebounceAdvance_of_delivery _ _ hall]
      simp [List.countP_cons, isDebounceAdvance]
  · intro hc
    rw [(debounceStep_hit env stN ssrc u hm).1 hc] at hd
    obtain ⟨a1, a2, a3, a4, extra, hx, hall⟩ := deliverAudio_spec hd
    subst hx
    refine ⟨?_, ?_, ?_, ?_, by simpa using a2⟩
    · rw [countP_delivery_extra _ isSpeakingStart_of_delivery _ _ hall]
      simp [List.countP_cons, isSpeakingStart]
    · rw [countP_delivery_extra _ isTimerArm_of_delivery _ _ hall]
      simp [List.countP_cons, isTimerArm]
    · rw [countP_delivery_extra _ isTimerRefresh_of_delivery _ _ hall]
      simp [List.countP_cons, isTimerRefresh]
    · rw [countP_delivery_extra _ isDebounceAdvance_of_delivery _ _ hall]
      simp [List.countP_cons, isDebounceAdvance]

/-- A delivery-only run (debounce skipped) never advances the debouncer and
leaves the timeout map untouched. -/
lemma deliver_only_no_advance {env : Env} {stN : HandlerState} {buffer : List Nat}
    {u : UserStat} {memo : Option (List Nat)} {st' : HandlerState} {effs : List Effect}
    (hd : deliverAudio env stN buffer u memo [] = .ok (st', effs)) :
    effs.countP isDebounceAdvance = 0 ∧ st'.speakingTimeouts = stN.speakingTimeouts := by
  obtain ⟨a1, a2, a3, a4, extra, hx, hall⟩ := deliverAudio_spec hd
  subst hx
  constructor
  · rw [List.countP_eq_zero]
    intro e he
    simp [isDebounceAdvance_of_delivery e (hall e he)]
  · exact a2

/-- An all-zero 24-byte scratch nonce, the state of a freshly constructed
handler. -/
def zeroNonce : List Nat := List.replicate 24 0

/-- A 12-byte datagram whose big-endian SSRC field (bytes 8..12) is `s`
(for `s < 256`). -/
def header12 (s : Nat) : List Nat := [0, 0, 0, 0, 0, 0, 0, 0, 0, 0, 0, s]

/-- A session whose decryptor always fails; adequate for packets that never
reach decryption. -/
def plainEnv : Env := ⟨some [1], "m", fun _ _ _ => none, [], 1⟩

/-- C1 (amended): a non-dropped packet advances the speaking debouncer
exactly once when its exact SSRC is in the directory, but a packet routed
through the SSRC-minus-one fallback does not advance the debouncer at all —
the debounce block is guarded by an exact `ssrcMap.has(ssrc)` check. -/
theorem C1_amended_debounce (env : Env) (st : HandlerState) (buffer : List Nat)
    (ssrc : Nat) (u : UserStat) (st' : HandlerState) (effs : List Effect)
    (hr : readUInt32BE buffer 8 = .ok ssrc)
    (hflag : env.speakingFlag ≠ 0)
    (hv : u.hasVideo = true →
      ∃ n pkt, parseBuffer env st.nonce buffer = .ok (n, .ok pkt) ∧ pkt ≠ env.silenceFrame)
    (hp : push env st buffer = .ok (st', effs)) :
    (List.lookup ssrc st.ssrcMap = some u → effs.countP isDebounceAdvance = 1) ∧
    (List.lookup ssrc st.ssrcMap = none → List.lookup (ssrc - 1) st.ssrcMap = some u →
      effs.countP isDebounceAdvance = 0 ∧ st'.speakingTimeouts = st.speakingTimeouts) := by
  constructor
  · intro hm
    obtain ⟨stN, memo, hmap, hto, hd⟩ :=
      push_ok_inverts env st buffer ssrc u st' effs hr hm hv hp
    have hmN : List.lookup ssrc stN.ssrcMap = some u := by rw [hmap]; exact hm
    have hacc := debounce_then_deliver_ok env stN buffer ssrc u memo st' effs hmN hflag hd
    by_cases hc : stN.speakingTimeouts.contains ssrc = true
    · exact (hacc.2 hc).2.2.2.1
    · have hc' : stN.speakingTimeouts.contains ssrc = false := by
        revert hc; cases stN.speakingTimeouts.contains ssrc <;> simp
      exact (hacc.1 hc').2.2.2.1
  · intro hm0 hm1
    have hres : resolveUser st.ssrcMap ssrc = some u := by
      unfold resolveUser; rw [hm0, hm1]
    by_cases hvv : u.hasVideo = true
    · obtain ⟨n, pkt, hpb, hsil⟩ := hv hvv
      rw [push_video_ok env st buffer ssrc u n pkt hr hres hvv hpb hsil] at hp
      rw [debounceStep_miss env { st with nonce := n } ssrc u hm0] at hp
      have h2 := @deliver_only_no_advance env { st with nonce := n } buffer u (some pkt) st' effs hp
      exact ⟨h2.1, h2.2⟩
    · have hvf : u.hasVideo = false := by
        revert hvv; cases u.hasVideo <;> simp
      rw [push_novideo env st buffer ssrc u hr hres hvf] at hp
      rw [debounceStep_miss env st ssrc u hm0] at hp
      exact @deliver_only_no_advance env st buffer u none st' effs hp

/-- C1 counterexample: the claim as stated is false — a packet with SSRC 42
resolved through the directory entry stored under 41 (the fallback) is not
dropped, yet `push` advances the debouncer zero times, not once: no
speaking notification, no timer, no timeout-map entry. -/
theorem C1_counterexample :
    readUInt32BE (header12 42) 8 = .ok 42 ∧
    List.lookup 42 (HandlerState.mk zeroNonce [(41, ⟨5, false, 0⟩)] [] [] []).ssrcMap = none ∧
    List.lookup 41 (HandlerState.mk zeroNonce [(41, ⟨5, false, 0⟩)] [] [] []).ssrcMap =
      some ⟨5, false, 0⟩ ∧
    push plainEnv (HandlerState.mk zeroNonce [(41, ⟨5, false, 0⟩)] [] [] []) (header12 42) =
      .ok (HandlerState.mk zeroNonce [(41, ⟨5, false, 0⟩)] [] [] [], []) := by
  refine ⟨rfl, rfl, rfl, rfl⟩

/-- C1 witness: at a concrete exact-hit packet the amended theorem yields
exactly one debouncer advance. -/
theorem C1_witness :
    List.countP isDebounceAdvance [Effect.speakingNotify 9 5 1, Effect.timerArmed 5 250] = 1 := by
  have h := C1_amended_debounce plainEnv
      (HandlerState.mk zeroNonce [(5, ⟨9, false, 0⟩)] [] [] []) (header12 5) 5
      ⟨9, false, 0⟩
      (HandlerState.mk zeroNonce [(5, ⟨9, false, 1⟩)] [] [] [5])
      [Effect.speakingNotify 9 5 1, Effect.timerArmed 5 250]
      rfl (by decide) (fun hfalse => Bool.noConfusion hfalse) rfl
  exact h.1 rfl

/-- C2: the per-SSRC speaking state machine — with no timer entry (Idle), a
non-dropped packet emits exactly one speaking-start notification (nonzero
bitmask) and arms the one-shot 250 ms timer; with a live timer entry
(Speaking), a further packet only refreshes the timer and emits no start;
when the timer fires and notification succeeds, exactly one speaking-stop
(bitmask 0) is emitted and the entry is removed from the timer map. -/
theorem C2_speaking_state_machine (env : Env) (st : HandlerState) (buffer : List Nat)
    (ssrc : Nat) (u : UserStat) (st' : HandlerState) (effs : List Effect)
    (hr : readUInt32BE buffer 8 = .ok ssrc)
    (hm : List.lookup ssrc st.ssrcMap = some u)
    (hflag : env.speakingFlag ≠ 0)
    (hv : u.hasVideo = true →
      ∃ n pkt, parseBuffer env st.nonce buffer = .ok (n, .ok pkt) ∧ pkt ≠ env.silenceFrame)
    (hp : push env st buffer = .ok (st', effs)) :
    (st.speakingTimeouts.contains ssrc = false →
      effs.countP isSpeakingStart = 1 ∧ effs.countP isTimerArm = 1 ∧
      effs.countP isTimerRefresh = 0 ∧ DISCORD_SPEAKING_DELAY = 250 ∧
      st'.speakingTimeouts.contains ssrc = true) ∧
    (st.speakingTimeouts.contains ssrc = true →
      effs.countP isSpeakingStart = 0 ∧ effs.countP isTimerArm = 0 ∧
      effs.countP isTimerRefresh = 1 ∧ st'.speakingTimeouts = st.speakingTimeouts) ∧
    (∀ st2 uid s, timerFire false st2 uid s =
      ({ st2 with speakingTimeouts := st2.speakingTimeouts.filter (fun x => x != s) },
       [.speakingNotify uid s 0])) := by
  obtain ⟨stN, memo, hmap, hto, hd⟩ :=
    push_ok_inverts env st buffer ssrc u st' effs hr hm hv hp
  have hmN : List.lookup ssrc stN.ssrcMap = some u := by rw [hmap]; exact hm
  have hacc := debounce_then_deliver_ok env stN buffer ssrc u memo st' effs hmN hflag hd
  refine ⟨?_, ?_, ?_⟩
  · intro hc
    have hcN : stN.speakingTimeouts.contains ssrc = false := by rw [hto]; exact hc
    obtain ⟨c1, c2, c3, _, c5⟩ := hacc.1 hcN
    refine ⟨c1, c2, c3, rfl, ?_⟩
    rw [c5, hto]
    simp
  · intro hc
    have hcN : stN.speakingTimeouts.contains ssrc = true := by rw [hto]; exact hc
    obtain ⟨c1, c2, c3, _, c5⟩ := hacc.2 hcN
    exact ⟨c1, c2, c3, by rw [c5, hto]⟩
  · intro st2 uid s
    rfl

/-- C2 witness: a fresh SSRC 5 arms the timer and notifies start exactly
once, and a timer fire with a successful notification removes the entry. -/
theorem C2_witness :
    List.countP isSpeakingStart [Effect.speakingNotify 9 5 1, Effect.timerArmed 5 250] = 1 ∧
    timerFire false (HandlerState.mk zeroNonce [] [] [] [5]) 9 5 =
      (HandlerState.mk zeroNonce [] [] [] [], [Effect.speakingNotify 9 5 0]) := by
  have h := C2_speaking_state_machine plainEnv
      (HandlerState.mk zeroNonce [(5, ⟨9, false, 0⟩)] [] [] []) (header12 5) 5
      ⟨9, false, 0⟩
      (HandlerState.mk zeroNonce [(5, ⟨9, false, 1⟩)] [] [] [5])
      [Effect.speakingNotify 9 5 1, Effect.timerArmed 5 250]
      rfl rfl (by decide) (fun hfalse => Bool.noConfusion hfalse) rfl
  exact ⟨(h.1 rfl).1, h.2.2 (HandlerState.mk zeroNonce [] [] [] [5]) 9 5⟩

/-- C3 (amended): when the debounce timer fires, a failing speaking-stop
notification is swallowed — the callback never lets the exception escape —
but the per-SSRC timer entry is removed only when the notification
succeeds; on failure the `catch` runs before the `delete`, so the entry
stays in the map. -/
theorem C3_amended_timer_fire (notifyFails : Bool) (st : HandlerState) (userId ssrc : Nat) :
    timerFire notifyFails st userId ssrc =
      if notifyFails then (st, [])
      else ({ st with speakingTimeouts := st.speakingTimeouts.filter (fun s => s != ssrc) },
            [.speakingNotify userId ssrc 0]) := by
  cases notifyFails <;> rfl

/-- C3 counterexample: the claim as stated is false — with a live timer
entry for SSRC 7, a failing notification leaves the entry in the timer map
(the swallow happens, but the removal does not). -/
theorem C3_counterexample :
    timerFire true (HandlerState.mk zeroNonce [] [] [] [7]) 1 7 =
      (HandlerState.mk zeroNonce [] [] [] [7], []) := rfl

/-- C7 counterexample: the claim as stated is false — the stripper is not
idempotent. Stripping this payload once leaves a payload that itself starts
with the `0xBE 0xDE` marker, so a second application strips again instead
of being a no-op. -/
theorem C7_counterexample :
    stripExtensions [0xbe, 0xde, 0, 0, 0xbe, 0xde, 0, 0, 1] = .ok [0xbe, 0xde, 0, 0, 1] ∧
    stripExtensions [0xbe, 0xde, 0, 0, 1] = .ok [1] ∧
    Except.ok (ε := Unit) [1] ≠ .ok [0xbe, 0xde, 0, 0, 1] := by
  refine ⟨rfl, rfl, ?_⟩
  intro h
  exact absurd (Except.ok.inj h) (by decide)

/-- C7 (amended): the stripper skips `4 + 4 * length` bytes exactly when the
two-byte marker is present and passes the payload through unmodified when it
is absent; a second application is a no-op precisely when the stripped
output does not itself begin with the marker (detectable by the same marker
check), which is not guaranteed for every payload. -/
theorem C7_amended_strip (p : List Nat) :
    (p.getD 0 0 = 0xbe → p.getD 1 0 = 0xde → 4 ≤ p.length →
      stripExtensions p = .ok (p.drop (4 + 4 * (p.getD 2 0 * 256 + p.getD 3 0)))) ∧
    (¬ (p.getD 0 0 = 0xbe ∧ p.getD 1 0 = 0xde) → stripExtensions p = .ok p) ∧
    (∀ q, stripExtensions p = .ok q → ¬ (q.getD 0 0 = 0xbe ∧ q.getD 1 0 = 0xde) →
      stripExtensions q = .ok q) := by
  refine ⟨?_, ?_, ?_⟩
  · intro h0 h1 h4
    unfold stripExtensions
    rw [if_pos ⟨h0, h1⟩, if_pos h4]
  · intro hmk
    unfold stripExtensions
    rw [if_neg hmk]
  · intro q _ hmk
    unfold stripExtensions
    rw [if_neg hmk]

/-- C7 witness: a marked payload with length field 1 loses its first 8
bytes, and re-stripping the unmarked result is a no-op. -/
theorem C7_witness :
    stripExtensions [0xbe, 0xde, 0, 1, 0, 0, 0, 0, 5] = .ok [5] ∧
    stripExtensions [5] = .ok [5] := by
  have h1 := (C7_amended_strip [0xbe, 0xde, 0, 1, 0, 0, 0, 0, 5]).1 rfl rfl (by decide)
  have h2 := (C7_amended_strip [5]).2.1 (by decide)
  exact ⟨h1, h2⟩

/-- C10: when an audio stream already exists for a user, a further
`makeStream` call returns the originally created handle and leaves the
state — in particular the originally stored end policy — unchanged, so the
first caller's policy alone decides whether `_stoppedSpeaking` finalizes
the stream. -/
theorem C10_makeStream_end_policy (st : HandlerState) (user freshId : Nat)
    (endp2 : String) (si : StreamInfo)
    (hm : List.lookup user st.streams = some si) :
    makeStream st user endp2 freshId = (si.streamId, st) ∧
    (si.endPolicy = "silence" →
      stoppedSpeaking st user =
        ({ st with streams := st.streams.filter (fun p => p.1 != user) },
         [.streamEnded si.streamId])) ∧
    (si.endPolicy ≠ "silence" → stoppedSpeaking st user = (st, [])) := by
  refine ⟨?_, ?_, ?_⟩
  · unfold makeStream
    rw [hm]
  · intro he
    unfold stoppedSpeaking
    rw [hm]
    exact if_pos he
  · intro he
    unfold stoppedSpeaking
    rw [hm]
    exact if_neg he

/-- C10 witness: re-requesting user 9's stream with a different end policy
returns the stored handle 3 and the stored `'silence'` policy still
finalizes the stream on speaking-stop. -/
theorem C10_witness :
    makeStream (HandlerState.mk zeroNonce [] [(9, ⟨3, "silence"⟩)] [] []) 9 "manual" 77 =
      (3, HandlerState.mk zeroNonce [] [(9, ⟨3, "silence"⟩)] [] []) ∧
    stoppedSpeaking (HandlerState.mk zeroNonce [] [(9, ⟨3, "silence"⟩)] [] []) 9 =
      (HandlerState.mk zeroNonce [] [] [] [], [Effect.streamEnded 3]) := by
  have h := C10_makeStream_end_policy (HandlerState.mk zeroNonce [] [(9, ⟨3, "silence"⟩)] [] [])
      9 77 "manual" ⟨3, "silence"⟩ rfl
  exact ⟨h.1, h.2.1 rfl⟩

/-- The debounce block never touches the nonce scratch or the two stream
registries. -/
lemma debounceStep_preserves (env : Env) (st : HandlerState) (ssrc : Nat) (u : UserStat) :
    (debounceStep env st ssrc u).1.nonce = st.nonce ∧
    (debounceStep env st ssrc u).1.streams = st.streams ∧
    (debounceStep env st ssrc u).1.videoStreams = st.videoStreams := by
  unfold debounceStep
  split
  · split
    · exact ⟨rfl, rfl, rfl⟩
    · exact ⟨rfl, rfl, rfl⟩
  · exact ⟨rfl, rfl, rfl⟩

/-- The debounce block emits no error events. -/
lemma debounceStep_no_error (env : Env) (st : HandlerState) (ssrc : Nat) (u : UserStat) :
    (debounceStep env st ssrc u).2.countP isError = 0 := by
  unfold debounceStep
  split
  · split
    · rfl
    · rfl
  · rfl

/-- The debounce block delivers no payloads. -/
lemma debounceStep_no_delivery (env : Env) (st : HandlerState) (ssrc : Nat) (u : UserStat) :
    (debounceStep env st ssrc u).2.countP isDelivery = 0 := by
  unfold debounceStep
  split
  · split
    · rfl
    · rfl
  · rfl

/-- Delivery with neither an audio nor a video sink registered for the user
is a no-op: no parse is even attempted. -/
lemma deliverAudio_no_sinks (env : Env) (st : HandlerState) (buffer : List Nat)
    (u : UserStat) (memo : Option (List Nat)) (effs : List Effect)
    (hsA : List.lookup u.userId st.streams = none)
    (hsV : st.videoStreams.contains u.userId = false) :
    deliverAudio env st buffer u memo effs = .ok (st, effs) := by
  unfold deliverAudio deliverVideo
  rw [hsA, hsV]
  rfl

/-- Audio delivery without a memoized packet re-parses; on an `Error` value
it emits exactly one error event and stops. -/
lemma deliverAudio_parse_err (env : Env) (st : HandlerState) (buffer : List Nat)
    (u : UserStat) (effs : List Effect) (si : StreamInfo) (n : List Nat) (msg : String)
    (hsi : List.lookup u.userId st.streams = some si)
    (hpe : parseBuffer env st.nonce buffer = .ok (n, .err msg)) :
    deliverAudio env st buffer u none effs =
      .ok ({ st with nonce := n }, effs ++ [.errorEmitted msg]) := by
  unfold deliverAudio
  rw [hsi, hpe]

/-- Video delivery without a memoized packet re-parses; on an `Error` value
it emits exactly one error event. -/
lemma deliverVideo_parse_err (env : Env) (st : HandlerState) (buffer : List Nat)
    (u : UserStat) (effs : List Effect) (n : List Nat) (msg : String)
    (hc : st.videoStreams.contains u.userId = true)
    (hpe : parseBuffer env st.nonce buffer = .ok (n, .err msg)) :
    deliverVideo env st buffer u none effs =
      .ok ({ st with nonce := n }, effs ++ [.errorEmitted msg]) := by
  unfold deliverVideo
  rw [hc, hpe]
  rfl

/-- Reduction of `push` when `parseBuffer` throws for a video-enabled
user. -/
lemma push_video_parse_throw (env : Env) (st : HandlerState) (buffer : List Nat)
    (ssrc : Nat) (u : UserStat)
    (hr : readUInt32BE buffer 8 = .ok ssrc)
    (hm : resolveUser st.ssrcMap ssrc = some u)
    (hv : u.hasVideo = true)
    (hp : parseBuffer env st.nonce buffer = .error ()) :
    push env st buffer = .error () := by
  simp [push, hr, hm, hv, hp]

/-- Video delivery with a memoized packet: pushes it to the video sink if
one is registered, otherwise nothing. -/
lemma deliverVideo_memo (env : Env) (st : HandlerState) (buffer : List Nat)
    (u : UserStat) (pkt : List Nat) (effs : List Effect) :
    deliverVideo env st buffer u (some pkt) effs =
      .ok (st, if st.videoStreams.contains u.userId then
                 effs ++ [.videoPush u.userId pkt] else effs) := by
  unfold deliverVideo
  by_cases hc : st.videoStreams.contains u.userId = true
  · rw [if_pos hc, if_pos hc]
  · rw [if_neg hc, if_neg hc]

/-- Audio delivery with a memoized packet and a registered sink: push the
payload and continue with the video block. -/
lemma deliverAudio_memo_sink (env : Env) (st : HandlerState) (buffer : List Nat)
    (u : UserStat) (pkt : List Nat) (effs : List Effect) (si : StreamInfo)
    (hsi : List.lookup u.userId st.streams = some si) :
    deliverAudio env st buffer u (some pkt) effs =
      deliverVideo env st buffer u (some pkt) (effs ++ [.audioPush si.streamId pkt]) := by
  unfold deliverAudio
  rw [hsi]

/-- C4: per-packet failure visibility — when the resolved user has neither
an audio nor a video sink, `push` emits no error event at all (for a
non-video user the failing parse is not even attempted); when at least one
sink is registered and the parse fails, `push` emits exactly one error
event and delivers no payload to any sink. -/
theorem C4_error_visibility (env : Env) (st : HandlerState) (buffer : List Nat)
    (ssrc : Nat) (u : UserStat)
    (hr : readUInt32BE buffer 8 = .ok ssrc)
    (hm : resolveUser st.ssrcMap ssrc = some u) :
    (List.lookup u.userId st.streams = none →
      st.videoStreams.contains u.userId = false →
      ∀ st' effs, push env st buffer = .ok (st', effs) → effs.countP isError = 0) ∧
    (∀ n msg, parseBuffer env st.nonce buffer = .ok (n, .err msg) →
      ((List.lookup u.userId st.streams).isSome = true ∨
        st.videoStreams.contains u.userId = true) →
      ∃ st' effs, push env st buffer = .ok (st', effs) ∧
        effs.countP isError = 1 ∧ effs.countP isDelivery = 0) := by
  constructor
  · intro hsA hsV st' effs hp
    by_cases hvv : u.hasVideo = true
    · cases hpb : parseBuffer env st.nonce buffer with
      | error e =>
        cases e
        rw [push_video_parse_throw env st buffer ssrc u hr hm hvv hpb] at hp
        exact Except.noConfusion hp
      | ok p =>
        obtain ⟨n, po⟩ := p
        cases po with
        | err msg =>
          rw [push_video_err env st buffer ssrc u n msg hr hm hvv hpb] at hp
          rw [if_neg (by rw [hsA, hsV]; simp)] at hp
          have h2 := Except.ok.inj hp
          injection h2 with ha hb
          subst hb
          rfl
        | ok pkt =>
          by_cases hsil : pkt = env.silenceFrame
          · rw [hsil] at hpb
            rw [push_video_silence env st buffer ssrc u n hr hm hvv hpb] at hp
            have h2 := Except.ok.inj hp
            injection h2 with ha hb
            subst hb
            rfl
          · rw [push_video_ok env st buffer ssrc u n pkt hr hm hvv hpb hsil] at hp
            have hpre := debounceStep_preserves env { st with nonce := n } ssrc u
            have hsA2 : List.lookup u.userId
                (debounceStep env { st with nonce := n } ssrc u).1.streams = none := by
              rw [hpre.2.1]; exact hsA
            have hsV2 : (debounceStep env { st with nonce := n } ssrc u).1.videoStreams.contains
                u.userId = false := by
              rw [hpre.2.2]; exact hsV
            rw [deliverAudio_no_sinks env _ buffer u (some pkt) _ hsA2 hsV2] at hp
            have h2 := Except.ok.inj hp
            injection h2 with ha hb
            subst hb
            exact debounceStep_no_error env { st with nonce := n } ssrc u
    · have hvf : u.hasVideo = false := by
        revert hvv; cases u.hasVideo <;> simp
      rw [push_novideo env st buffer ssrc u hr hm hvf] at hp
      have hpre := debounceStep_preserves env st ssrc u
      have hsA2 : List.lookup u.userId (debounceStep env st ssrc u).1.streams = none := by
        rw [hpre.2.1]; exact hsA
      have hsV2 : (debounceStep env st ssrc u).1.videoStreams.contains u.userId = false := by
        rw [hpre.2.2]; exact hsV
      rw [deliverAudio_no_sinks env _ buffer u none _ hsA2 hsV2] at hp
      have h2 := Except.ok.inj hp
      injection h2 with ha hb
      subst hb
      exact debounceStep_no_error env st ssrc u
  · intro n msg hpe hsome
    by_cases hvv : u.hasVideo = true
    · rw [push_video_err env st buffer ssrc u n msg hr hm hvv hpe, if_pos hsome]
      exact ⟨_, _, rfl, rfl, rfl⟩
    · have hvf : u.hasVideo = false := by
        revert hvv; cases u.hasVideo <;> simp
      rw [push_novideo env st buffer ssrc u hr hm hvf]
      have hpre := debounceStep_preserves env st ssrc u
      have hpe2 : parseBuffer env (debounceStep env st ssrc u).1.nonce buffer =
          .ok (n, .err msg) := by
        rw [hpre.1]; exact hpe
      cases hsi : List.lookup u.userId st.streams with
      | some si =>
        have hsi2 : List.lookup u.userId (debounceStep env st ssrc u).1.streams = some si := by
          rw [hpre.2.1]; exact hsi
        rw [deliverAudio_parse_err env _ buffer u _ si n msg hsi2 hpe2]
        refine ⟨_, _, rfl, ?_, ?_⟩
        · rw [List.countP_append, debounceStep_no_error env st ssrc u]
          rfl
        · rw [List.countP_append, debounceStep_no_delivery env st ssrc u]
          rfl
      | none =>
        have hc : st.videoStreams.contains u.userId = true := by
          rcases hsome with h | h
          · rw [hsi] at h
            exact absurd h (by simp)
          · exact h
        have hsi2 : List.lookup u.userId (debounceStep env st ssrc u).1.streams = none := by
          rw [hpre.2.1]; exact hsi
        have hc2 : (debounceStep env st ssrc u).1.videoStreams.contains u.userId = true := by
          rw [hpre.2.2]; exact hc
        have hred : deliverAudio env (debounceStep env st ssrc u).1 buffer u none
            (debounceStep env st ssrc u).2 =
            deliverVideo env (debounceStep env st ssrc u).1 buffer u none
              (debounceStep env st ssrc u).2 := by
          unfold deliverAudio
          rw [hsi2]
        rw [hred, deliverVideo_parse_err env _ buffer u _ n msg hc2 hpe2]
        refine ⟨_, _, rfl, ?_, ?_⟩
        · rw [List.countP_append, debounceStep_no_error env st ssrc u]
          rfl
        · rw [List.countP_append, debounceStep_no_delivery env st ssrc u]
          rfl

/-- An environment whose session key is absent: every parse returns the
missing-key `Error` value. -/
def noKeyEnv : Env := ⟨none, "m", fun _ _ _ => none, [0xf8, 0xff, 0xfe], 1⟩

/-- C4 witness: a missing-key parse failure for user 9, who has a
registered audio sink, yields exactly one error event and no delivery. -/
theorem C4_witness :
    (push noKeyEnv
        (HandlerState.mk zeroNonce [(5, ⟨9, false, 1⟩)] [(9, ⟨1, "x"⟩)] [] [])
        (header12 5)).map
      (fun r => (r.2.countP isError, r.2.countP isDelivery)) = .ok (1, 0) := by
  obtain ⟨st', effs, hp, h1, h0⟩ :=
    (C4_error_visibility noKeyEnv
        (HandlerState.mk zeroNonce [(5, ⟨9, false, 1⟩)] [(9, ⟨1, "x"⟩)] [] [])
        (header12 5) 5 ⟨9, false, 1⟩ rfl rfl).2
      (header12 5 ++ List.replicate 12 0) "secret_key cannot be null or undefined"
      rfl (Or.inl rfl)
  rw [hp]
  simp only [Except.map]
  rw [h1, h0]

/-- C9: silence filtering for a video-enabled user — a packet whose
decrypted, stripped payload equals the canonical silence frame is dropped
entirely (no effects at all: nothing delivered, debouncer untouched, only
the nonce scratch moves), while a non-silence payload is delivered to the
registered audio sink. -/
theorem C9_silence_filter (env : Env) (st : HandlerState) (buffer : List Nat)
    (ssrc : Nat) (u : UserStat)
    (hr : readUInt32BE buffer 8 = .ok ssrc)
    (hm : resolveUser st.ssrcMap ssrc = some u)
    (hv : u.hasVideo = true) :
    (∀ n, parseBuffer env st.nonce buffer = .ok (n, .ok env.silenceFrame) →
      push env st buffer = .ok ({ st with nonce := n }, [])) ∧
    (∀ n pkt si, parseBuffer env st.nonce buffer = .ok (n, .ok pkt) →
      pkt ≠ env.silenceFrame →
      List.lookup u.userId st.streams = some si →
      ∃ st' effs, push env st buffer = .ok (st', effs) ∧
        Effect.audioPush si.streamId pkt ∈ effs) := by
  constructor
  · intro n hpb
    exact push_video_silence env st buffer ssrc u n hr hm hv hpb
  · intro n pkt si hpb hsil hsi
    rw [push_video_ok env st buffer ssrc u n pkt hr hm hv hpb hsil]
    have hpre := debounceStep_preserves env { st with nonce := n } ssrc u
    have hsi2 : List.lookup u.userId
        (debounceStep env { st with nonce := n } ssrc u).1.streams = some si := by
      rw [hpre.2.1]; exact hsi
    rw [deliverAudio_memo_sink env _ buffer u pkt _ si hsi2,
        deliverVideo_memo env _ buffer u pkt _]
    refine ⟨_, _, rfl, ?_⟩
    by_cases hc : (debounceStep env { st with nonce := n } ssrc u).1.videoStreams.contains
        u.userId = true
    · rw [if_pos hc]
      simp
    · rw [if_neg hc]
      simp

/-- A session that decrypts every datagram to the canonical silence frame. -/
def silentEnv : Env :=
  ⟨some [1], "m", fun _ _ _ => some [0xf8, 0xff, 0xfe], [0xf8, 0xff, 0xfe], 1⟩

/-- A session that decrypts every datagram to a 3-byte non-silence payload. -/
def voicedEnv : Env :=
  ⟨some [1], "m", fun _ _ _ => some [1, 2, 3], [0xf8, 0xff, 0xfe], 1⟩

/-- C9 witness: for video-enabled user 9 with a registered audio sink, a
silence-frame packet produces no effects at all, and a non-silence payload
of the same length is pushed to the sink. -/
theorem C9_witness :
    push silentEnv
        (HandlerState.mk zeroNonce [(5, ⟨9, true, 1⟩)] [(9, ⟨1, "x"⟩)] [] [])
        (header12 5) =
      .ok (HandlerState.mk (header12 5 ++ List.replicate 12 0)
             [(5, ⟨9, true, 1⟩)] [(9, ⟨1, "x"⟩)] [] [], []) ∧
    Effect.audioPush 1 [1, 2, 3] ∈
      [Effect.speakingNotify 9 5 1, Effect.timerArmed 5 250, Effect.audioPush 1 [1, 2, 3]] := by
  constructor
  · exact (C9_silence_filter silentEnv
        (HandlerState.mk zeroNonce [(5, ⟨9, true, 1⟩)] [(9, ⟨1, "x"⟩)] [] [])
        (header12 5) 5 ⟨9, true, 1⟩ rfl rfl rfl).1
      (header12 5 ++ List.replicate 12 0) rfl
  · obtain ⟨st', effs, hp, hmem⟩ := (C9_silence_filter voicedEnv
        (HandlerState.mk zeroNonce [(5, ⟨9, true, 1⟩)] [(9, ⟨1, "x"⟩)] [] [])
        (header12 5) 5 ⟨9, true, 1⟩ rfl rfl rfl).2
      (header12 5 ++ List.replicate 12 0) [1, 2, 3] ⟨1, "x"⟩ rfl (by decide) rfl
    have hcomp : push voicedEnv
        (HandlerState.mk zeroNonce [(5, ⟨9, true, 1⟩)] [(9, ⟨1, "x"⟩)] [] [])
        (header12 5) =
        .ok (HandlerState.mk (header12 5 ++ List.replicate 12 0)
               [(5, ⟨9, true, 1⟩)] [(9, ⟨1, "x"⟩)] [] [5],
             [Effect.speakingNotify 9 5 1, Effect.timerArmed 5 250,
              Effect.audioPush 1 [1, 2, 3]]) := rfl
    rw [hcomp] at hp
    have h2 := Except.ok.inj hp
    injection h2 with ha hb
    rw [← hb] at hmem
    exact hmem

/-- `bufCopy` with in-range offsets never throws; its value is the source
chunk clamped to both buffers, spliced over the target. -/
lemma bufCopy_eq (target : List Nat) (ts : Nat) (src : List Nat) (s e : Int)
    (hs0 : 0 ≤ s) (hsl : s ≤ (src.length : Int)) (he0 : 0 ≤ e) :
    bufCopy target ts src s e =
      some (target.take ts ++
        ((src.take (min e.toNat src.length)).drop s.toNat).take (target.length - ts) ++
        target.drop (ts +
          (((src.take (min e.toNat src.length)).drop s.toNat).take (target.length - ts)).length)) := by
  unfold bufCopy
  rw [if_neg (by push_neg; exact ⟨hs0, hsl, he0⟩)]

/-- `buf.slice(12, k)` for an in-range non-negative `k`. -/
lemma jsSlice_nonneg (l : List Nat) (start k : Nat) (hk : k ≤ l.length) :
    jsSlice l start (some (k : Int)) = (l.take k).drop start := by
  have h0 : ¬ ((k : Int) < 0) := by omega
  have h1 : min (k : Int) ((l.length : Int)) = (k : Int) := min_eq_left (by omega)
  have h2 : ((k : Int)).toNat = k := by omega
  unfold jsSlice
  simp only [h0, if_false, h1, h2]

/-- `buf.slice(12)` with no end offset takes the whole buffer. -/
lemma jsSlice_none (l : List Nat) (start : Nat) :
    jsSlice l start none = l.drop start := by
  have h1 : ((l.length : Int)).toNat = l.length := by omega
  unfold jsSlice
  simp only [h1, List.take_length]

/-- C5: nonce construction and ciphertext boundary for the three encryption
modes — lite uses the datagram's last 4 bytes zero-padded to 24 with the
ciphertext ending 4 bytes early, suffix uses the last 24 bytes with the
ciphertext ending 24 bytes early, and every other mode uses the first 12
bytes zero-padded to 24 with the ciphertext running to the end; in each
case the produced nonce is exactly 24 bytes and the ciphertext starts at
offset 12. The zero padding is the untouched remainder of the scratch
buffer, all-zero from construction and kept all-zero by each mode's own
copies. -/
theorem C5_nonce_builder (nonce buffer : List Nat)
    (h24 : nonce.length = 24) (h12 : 12 ≤ buffer.length) :
    (nonce.drop 4 = List.replicate 20 0 →
      nonceAndEnd "xsalsa20_poly1305_lite" nonce buffer =
        .ok (buffer.drop (buffer.length - 4) ++ List.replicate 20 0,
             some ((buffer.length : Int) - 4)) ∧
      (buffer.drop (buffer.length - 4) ++ List.replicate 20 0).length = 24 ∧
      jsSlice buffer 12 (some ((buffer.length : Int) - 4)) =
        (buffer.take (buffer.length - 4)).drop 12) ∧
    (24 ≤ buffer.length →
      nonceAndEnd "xsalsa20_poly1305_suffix" nonce buffer =
        .ok (buffer.drop (buffer.length - 24), some ((buffer.length : Int) - 24)) ∧
      (buffer.drop (buffer.length - 24)).length = 24 ∧
      jsSlice buffer 12 (some ((buffer.length : Int) - 24)) =
        (buffer.take (buffer.length - 24)).drop 12) ∧
    (∀ mode : String, mode ≠ "xsalsa20_poly1305_lite" → mode ≠ "xsalsa20_poly1305_suffix" →
      nonce.drop 12 = List.replicate 12 0 →
      nonceAndEnd mode nonce buffer =
        .ok (buffer.take 12 ++ List.replicate 12 0, none) ∧
      (buffer.take 12 ++ List.replicate 12 0).length = 24 ∧
      jsSlice buffer 12 none = buffer.drop 12) := by
  refine ⟨?_, ?_, ?_⟩
  · intro hpad
    have hlen4 : (buffer.drop (buffer.length - 4)).length = 4 := by
      rw [List.length_drop]; omega
    have hcopy : bufCopy nonce 0 buffer ((buffer.length : Int) - 4) (buffer.length : Int) =
        some (buffer.drop (buffer.length - 4) ++ List.replicate 20 0) := by
      rw [bufCopy_eq nonce 0 buffer _ _ (by omega) (by omega) (by omega)]
      have h1 : ((buffer.length : Int)).toNat = buffer.length := by omega
      have h2 : ((buffer.length : Int) - 4).toNat = buffer.length - 4 := by omega
      rw [h1, h2, min_self, List.take_length, List.take_zero, Nat.sub_zero, h24]
      have htk : (buffer.drop (buffer.length - 4)).take 24 = buffer.drop (buffer.length - 4) :=
        List.take_of_length_le (by omega)
      rw [htk, hlen4, List.nil_append, hpad]
    refine ⟨?_, ?_, ?_⟩
    · unfold nonceAndEnd
      rw [if_pos rfl, hcopy]
    · rw [List.length_append, hlen4, List.length_replicate]
    · have hcast : (buffer.length : Int) - 4 = ((buffer.length - 4 : Nat) : Int) := by omega
      rw [hcast, jsSlice_nonneg buffer 12 (buffer.length - 4) (by omega)]
  · intro h24L
    have hlen24 : (buffer.drop (buffer.length - 24)).length = 24 := by
      rw [List.length_drop]; omega
    have hcopy : bufCopy nonce 0 buffer ((buffer.length : Int) - 24) (buffer.length : Int) =
        some (buffer.drop (buffer.length - 24)) := by
      rw [bufCopy_eq nonce 0 buffer _ _ (by omega) (by omega) (by omega)]
      have h1 : ((buffer.length : Int)).toNat = buffer.length := by omega
      have h2 : ((buffer.length : Int) - 24).toNat = buffer.length - 24 := by omega
      rw [h1, h2, min_self, List.take_length, List.take_zero, Nat.sub_zero, h24]
      have htk : (buffer.drop (buffer.length - 24)).take 24 = buffer.drop (buffer.length - 24) :=
        List.take_of_length_le (by omega)
      rw [htk, hlen24, List.nil_append]
      have hdrop : nonce.drop (0 + 24) = [] := by
        apply List.drop_eq_nil_of_le
        omega
      rw [hdrop, List.append_nil]
    refine ⟨?_, ?_, ?_⟩
    · unfold nonceAndEnd
      rw [if_neg (by decide), if_pos rfl, hcopy]
    · exact hlen24
    · have hcast : (buffer.length : Int) - 24 = ((buffer.length - 24 : Nat) : Int) := by omega
      rw [hcast, jsSlice_nonneg buffer 12 (buffer.length - 24) (by omega)]
  · intro mode hne1 hne2 hpad
    have hlen12 : (buffer.take 12).length = 12 := by
      rw [List.length_take]; omega
    have hcopy : bufCopy nonce 0 buffer 0 12 =
        some (buffer.take 12 ++ List.replicate 12 0) := by
      rw [bufCopy_eq nonce 0 buffer 0 12 (by omega) (by omega) (by omega)]
      have h1 : ((12 : Int)).toNat = 12 := by omega
      have h00 : ((0 : Int)).toNat = 0 := rfl
      rw [h1, min_eq_left (by omega), List.take_zero, Nat.sub_zero, h24, h00, List.drop_zero]
      have htk : (buffer.take 12).take 24 = buffer.take 12 :=
        List.take_of_length_le (by omega)
      rw [htk, hlen12, List.nil_append, hpad]
    refine ⟨?_, ?_, ?_⟩
    · unfold nonceAndEnd
      rw [if_neg hne1, if_neg hne2, hcopy]
    · rw [List.length_append, hlen12, List.length_replicate]
    · exact jsSlice_none buffer 12

/-- C5 witness: on a 28-byte datagram with a fresh all-zero scratch nonce,
all three modes produce their specified 24-byte nonce and ciphertext
boundary. -/
theorem C5_witness :
    nonceAndEnd "xsalsa20_poly1305_lite" zeroNonce (List.range 28) =
      .ok ([24, 25, 26, 27] ++ List.replicate 20 0, some 24) ∧
    nonceAndEnd "xsalsa20_poly1305_suffix" zeroNonce (List.range 28) =
      .ok ([4, 5, 6, 7, 8, 9, 10, 11, 12, 13, 14, 15, 16, 17, 18, 19, 20, 21, 22,
            23, 24, 25, 26, 27], some 4) ∧
    nonceAndEnd "aead_aes256_gcm" zeroNonce (List.range 28) =
      .ok ([0, 1, 2, 3, 4, 5, 6, 7, 8, 9, 10, 11] ++ List.replicate 12 0, none) := by
  have h := C5_nonce_builder zeroNonce (List.range 28) (by decide) (by decide)
  obtain ⟨hl, hs, hn⟩ := h
  refine ⟨?_, ?_, ?_⟩
  · have := (hl (by decide)).1
    rw [this]
    rfl
  · have := (hs (by decide)).1
    rw [this]
    rfl
  · have := (hn "aead_aes256_gcm" (by decide) (by decide) (by decide)).1
    rw [this]
    rfl

/-- With in-range bounds the three nonce copies all succeed, so the nonce
selection step never throws. -/
lemma nonceAndEnd_no_throw (mode : String) (nonce buffer : List Nat)
    (h12 : 12 ≤ buffer.length)
    (hsfx : mode = "xsalsa20_poly1305_suffix" → 24 ≤ buffer.length) :
    ∃ p, nonceAndEnd mode nonce buffer = .ok p := by
  unfold nonceAndEnd
  by_cases hl : mode = "xsalsa20_poly1305_lite"
  · rw [if_pos hl,
        bufCopy_eq nonce 0 buffer ((buffer.length : Int) - 4) (buffer.length : Int)
          (by omega) (by omega) (by omega)]
    exact ⟨_, rfl⟩
  · rw [if_neg hl]
    by_cases hs : mode = "xsalsa20_poly1305_suffix"
    · have h24 := hsfx hs
      rw [if_pos hs,
          bufCopy_eq nonce 0 buffer ((buffer.length : Int) - 24) (buffer.length : Int)
            (by omega) (by omega) (by omega)]
      exact ⟨_, rfl⟩
    · rw [if_neg hs,
          bufCopy_eq nonce 0 buffer 0 12 (by omega) (by omega) (by omega)]
      exact ⟨_, rfl⟩

/-- When every plaintext the decryptor can produce that starts with the
extension marker is at least 4 bytes long, `parseBuffer` never throws. -/
lemma parseBuffer_no_throw (env : Env) (nonce buffer : List Nat)
    (h12 : 12 ≤ buffer.length)
    (hsfx : env.mode = "xsalsa20_poly1305_suffix" → 24 ≤ buffer.length)
    (hopen : ∀ ct n k pkt, env.sbOpen ct n k = some pkt →
      pkt.getD 0 0 = 0xbe → pkt.getD 1 0 = 0xde → 4 ≤ pkt.length) :
    ∃ r, parseBuffer env nonce buffer = .ok r := by
  obtain ⟨⟨n, endOff⟩, hne⟩ := nonceAndEnd_no_throw env.mode nonce buffer h12 hsfx
  unfold parseBuffer
  rw [hne]
  dsimp only
  cases hsk : env.secret_key with
  | none => exact ⟨_, rfl⟩
  | some key =>
    dsimp only
    cases hso : env.sbOpen (jsSlice buffer 12 endOff) n key with
    | none => exact ⟨_, rfl⟩
    | some pkt =>
      dsimp only
      unfold stripExtensions
      by_cases hmk : pkt.getD 0 0 = 0xbe ∧ pkt.getD 1 0 = 0xde
      · rw [if_pos hmk, if_pos (hopen _ _ _ _ hso hmk.1 hmk.2)]
        exact ⟨_, rfl⟩
      · rw [if_neg hmk]
        exact ⟨_, rfl⟩

/-- Video delivery never throws when a parse at any nonce state cannot
throw. -/
lemma deliverVideo_no_throw (env : Env) (st : HandlerState) (buffer : List Nat)
    (u : UserStat) (memo : Option (List Nat)) (effs : List Effect)
    (hp : ∀ nonce, ∃ r, parseBuffer env nonce buffer = .ok r) :
    ∃ r, deliverVideo env st buffer u memo effs = .ok r := by
  unfold deliverVideo
  by_cases hc : st.videoStreams.contains u.userId = true
  · rw [if_pos hc]
    cases memo with
    | some pkt => exact ⟨_, rfl⟩
    | none =>
      obtain ⟨⟨n, po⟩, hpp⟩ := hp st.nonce
      rw [hpp]
      cases po with
      | err msg => exact ⟨_, rfl⟩
      | ok pkt => exact ⟨_, rfl⟩
  · rw [if_neg hc]
    exact ⟨_, rfl⟩

/-- The full delivery stage never throws when a parse at any nonce state
cannot throw. -/
lemma deliverAudio_no_throw (env : Env) (st : HandlerState) (buffer : List Nat)
    (u : UserStat) (memo : Option (List Nat)) (effs : List Effect)
    (hp : ∀ nonce, ∃ r, parseBuffer env nonce buffer = .ok r) :
    ∃ r, deliverAudio env st buffer u memo effs = .ok r := by
  unfold deliverAudio
  cases hsi : List.lookup u.userId st.streams with
  | none => exact deliverVideo_no_throw env st buffer u memo effs hp
  | some si =>
    cases memo with
    | some pkt => exact deliverVideo_no_throw env st buffer u (some pkt) _ hp
    | none =>
      obtain ⟨⟨n, po⟩, hpp⟩ := hp st.nonce
      rw [hpp]
      cases po with
      | err msg => exact ⟨_, rfl⟩
      | ok pkt => exact deliverVideo_no_throw env { st with nonce := n } buffer u (some pkt) _ hp

/-- C6 (amended): `push` completes without throwing on every datagram of at
least 12 bytes (at least 24 in suffix mode) whenever the decryptor cannot
produce a 2- or 3-byte plaintext that starts with the extension marker; a
datagram shorter than 12 bytes, however, makes the initial 32-bit SSRC read
throw out of `push`. -/
theorem C6_amended_no_throw (env : Env) (st : HandlerState) (buffer : List Nat)
    (h12 : 12 ≤ buffer.length)
    (hsfx : env.mode = "xsalsa20_poly1305_suffix" → 24 ≤ buffer.length)
    (hopen : ∀ ct n k pkt, env.sbOpen ct n k = some pkt →
      pkt.getD 0 0 = 0xbe → pkt.getD 1 0 = 0xde → 4 ≤ pkt.length) :
    ∃ r, push env st buffer = .ok r := by
  have hparse : ∀ nonce, ∃ r, parseBuffer env nonce buffer = .ok r :=
    fun nonce => parseBuffer_no_throw env nonce buffer h12 hsfx hopen
  unfold push
  have hr : readUInt32BE buffer 8 =
      .ok (buffer.getD 8 0 * 16777216 + buffer.getD 9 0 * 65536 +
           buffer.getD 10 0 * 256 + buffer.getD 11 0) := by
    unfold readUInt32BE
    rw [if_pos (by omega)]
  rw [hr]
  dsimp only
  cases hres : resolveUser st.ssrcMap (buffer.getD 8 0 * 16777216 + buffer.getD 9 0 * 65536 +
      buffer.getD 10 0 * 256 + buffer.getD 11 0) with
  | none => exact ⟨_, rfl⟩
  | some u =>
    dsimp only
    by_cases hv : u.hasVideo = true
    · rw [if_pos hv]
      obtain ⟨⟨n, po⟩, hpp⟩ := hparse st.nonce
      rw [hpp]
      cases po with
      | err msg =>
        dsimp only
        by_cases hsink : (List.lookup u.userId st.streams).isSome = true ∨
            st.videoStreams.contains u.userId = true
        · rw [if_pos hsink]
          exact ⟨_, rfl⟩
        · rw [if_neg hsink]
          exact ⟨_, rfl⟩
      | ok pkt =>
        dsimp only
        by_cases hsil : pkt = env.silenceFrame
        · rw [if_pos hsil]
          exact ⟨_, rfl⟩
        · rw [if_neg hsil]
          exact deliverAudio_no_throw env _ buffer u (some pkt) _ hparse
    · rw [if_neg hv]
      exact deliverAudio_no_throw env _ buffer u none _ hparse

/-- C6 counterexample: the claim as stated is false — routing the empty
datagram throws (`readUInt32BE(8)` is out of range), so `push` does not
complete for every truncated input. -/
theorem C6_counterexample : push plainEnv (HandlerState.mk zeroNonce [] [] [] []) [] =
    .error () := rfl

/-- C6 witness: a 12-byte datagram in a non-suffix mode with a decryptor
that never yields a short marked plaintext routes without throwing. -/
theorem C6_witness :
    push plainEnv (HandlerState.mk zeroNonce [(5, ⟨9, false, 1⟩)] [] [] []) (header12 5) ≠
      Except.error () := by
  obtain ⟨r, hr⟩ := C6_amended_no_throw plainEnv
      (HandlerState.mk zeroNonce [(5, ⟨9, false, 1⟩)] [] [] []) (header12 5)
      (by decide) (by decide) (fun ct n k pkt h => Option.noConfusion h)
  rw [hr]
  simp

/-- Audio delivery without a memoized packet re-parses; on success it pushes
the payload and continues with the video block. -/
lemma deliverAudio_parse_ok (env : Env) (st : HandlerState) (buffer : List Nat)
    (u : UserStat) (effs : List Effect) (si : StreamInfo) (n pkt : List Nat)
    (hsi : List.lookup u.userId st.streams = some si)
    (hpb : parseBuffer env st.nonce buffer = .ok (n, .ok pkt)) :
    deliverAudio env st buffer u none effs =
      deliverVideo env { st with nonce := n } buffer u (some pkt)
        (effs ++ [.audioPush si.streamId pkt]) := by
  unfold deliverAudio
  rw [hsi, hpb]

/-- A session whose plaintexts carry an extension-length field pointing past
the plaintext end. -/
def overExtEnv : Env :=
  ⟨some [1], "aead_aes256_gcm", fun _ _ _ => some [0xbe, 0xde, 0, 2], [0xf8, 0xff, 0xfe], 1⟩

/-- C8 counterexample: the claim as stated is false — the plaintext
`be de 00 02` declares a 2-word extension, so the strip offset 12 lies past
its 4-byte end; `subarray` clamps instead of failing, and `push` delivers
the resulting empty payload to the registered audio sink with no error
event, rather than dropping the packet. -/
theorem C8_counterexample :
    (push overExtEnv
        (HandlerState.mk zeroNonce [(5, ⟨9, false, 1⟩)] [(9, ⟨1, "silence"⟩)] [] [])
        (header12 5)).map (fun r => r.2) =
      .ok [Effect.speakingNotify 9 5 1, Effect.timerArmed 5 250,
           Effect.audioPush 1 []] := rfl

/-- C8 (amended): a plaintext whose header-extension length implies a slice
past the buffer end is not treated as a decryption failure — the clamping
`subarray` yields an empty payload, `parseBuffer` reports success with that
empty payload, and `push` delivers it to a registered audio sink like any
other payload, emitting no error event. -/
theorem C8_amended_clamped_delivery (p : List Nat)
    (h0 : p.getD 0 0 = 0xbe) (h1 : p.getD 1 0 = 0xde) (h4 : 4 ≤ p.length)
    (hlen : p.length ≤ 4 + 4 * (p.getD 2 0 * 256 + p.getD 3 0)) :
    stripExtensions p = .ok [] ∧
    (∀ env : Env, ∀ nonce buffer n key : List Nat, ∀ endOff : Option Int,
      nonceAndEnd env.mode nonce buffer = .ok (n, endOff) →
      env.secret_key = some key →
      env.sbOpen (jsSlice buffer 12 endOff) n key = some p →
      parseBuffer env nonce buffer = .ok (n, .ok [])) ∧
    (∀ env : Env, ∀ st : HandlerState, ∀ buffer : List Nat, ∀ ssrc : Nat,
      ∀ u : UserStat, ∀ si : StreamInfo, ∀ n : List Nat,
      readUInt32BE buffer 8 = .ok ssrc →
      resolveUser st.ssrcMap ssrc = some u →
      u.hasVideo = false →
      List.lookup u.userId st.streams = some si →
      parseBuffer env st.nonce buffer = .ok (n, .ok []) →
      ∃ st' effs, push env st buffer = .ok (st', effs) ∧
        Effect.audioPush si.streamId [] ∈ effs ∧ effs.countP isError = 0) := by
  have hstrip : stripExtensions p = .ok [] := by
    unfold stripExtensions
    rw [if_pos ⟨h0, h1⟩, if_pos h4, List.drop_eq_nil_of_le hlen]
  refine ⟨hstrip, ?_, ?_⟩
  · intro env nonce buffer n key endOff hne hsk hso
    unfold parseBuffer
    rw [hne]
    dsimp only
    rw [hsk]
    dsimp only
    rw [hso]
    dsimp only
    rw [hstrip]
  · intro env st buffer ssrc u si n hr hm hvf hsi hpb
    rw [push_novideo env st buffer ssrc u hr hm hvf]
    have hpre := debounceStep_preserves env st ssrc u
    have hsi2 : List.lookup u.userId (debounceStep env st ssrc u).1.streams = some si := by
      rw [hpre.2.1]; exact hsi
    have hpb2 : parseBuffer env (debounceStep env st ssrc u).1.nonce buffer =
        .ok (n, .ok []) := by
      rw [hpre.1]; exact hpb
    rw [deliverAudio_parse_ok env _ buffer u _ si n [] hsi2 hpb2,
        deliverVideo_memo env _ buffer u [] _]
    refine ⟨_, _, rfl, ?_, ?_⟩
    · by_cases hc : ({ (debounceStep env st ssrc u).1 with
          nonce := n } : HandlerState).videoStreams.contains u.userId = true
      · rw [if_pos hc]
        simp
      · rw [if_neg hc]
        simp
    · by_cases hc : ({ (debounceStep env st ssrc u).1 with
          nonce := n } : HandlerState).videoStreams.contains u.userId = true
      · rw [if_pos hc]
        rw [List.countP_append, List.countP_append, debounceStep_no_error env st ssrc u]
        rfl
      · rw [if_neg hc]
        rw [List.countP_append, debounceStep_no_error env st ssrc u]
        rfl

/-- C8 witness: the concrete over-length plaintext `be de 00 02` strips to
the empty payload and that payload is delivered to audio sink 1. -/
theorem C8_witness :
    stripExtensions [0xbe, 0xde, 0, 2] = .ok [] ∧
    Effect.audioPush 1 [] ∈
      [Effect.speakingNotify 9 5 1, Effect.timerArmed 5 250, Effect.audioPush 1 []] := by
  have h := C8_amended_clamped_delivery [0xbe, 0xde, 0, 2] rfl rfl (by decide) (by decide)
  refine ⟨h.1, ?_⟩
  obtain ⟨st', effs, hp, hmem, herr⟩ := h.2.2 overExtEnv
      (HandlerState.mk zeroNonce [(5, ⟨9, false, 1⟩)] [(9, ⟨1, "silence"⟩)] [] [])
      (header12 5) 5 ⟨9, false, 1⟩ ⟨1, "silence"⟩ (header12 5 ++ List.replicate 12 0)
      rfl rfl rfl rfl rfl
  have hcomp : push overExtEnv
      (HandlerState.mk zeroNonce [(5, ⟨9, false, 1⟩)] [(9, ⟨1, "silence"⟩)] [] [])
      (header12 5) =
      .ok (HandlerState.mk (header12 5 ++ List.replicate 12 0)
             [(5, ⟨9, false, 1⟩)] [(9, ⟨1, "silence"⟩)] [] [5],
           [Effect.speakingNotify 9 5 1, Effect.timerArmed 5 250,
            Effect.audioPush 1 []]) := rfl
  rw [hcomp] at hp
  have h2 := Except.ok.inj hp
  injection h2 with ha hb
  rw [← hb] at hmem
  exact hmem
